import Mathlib

/-!
Shallow embedding of `app.py`: a single-endpoint Flask service that fetches a
player's equipped-outfit ids, downloads up to seven outfit-piece images, and
composites them onto a fixed background canvas, returning a PNG.

Modelling conventions:
* Python floats are modelled by exact rationals (`ℚ`); `int(x)` (truncation
  toward zero) is `pyInt`; Python's floor division `//` is `Int.fdiv`.
* Outfit ids (elements of `EquippedOutfit`, passed through `str(...)`) are
  modelled as `String`; `str.startswith` is `pyStartswith` (prefix test on the
  underlying character lists); the Python `set` `used_ids` is a `List String`
  queried with `List.contains`.
* PIL images and canvases are modelled as free terms of the operations the
  code performs (decode, resize, new, paste), so two composites are equal
  exactly when the code built them by the same sequence of operations.
* The network is an oracle: the player-info response and each image download
  are inputs to the handler (`Option` models request/decode failure, as the
  code maps every exception to `None`).
* The seven `executor.submit` tasks share the closure variable `used_ids`;
  `runAssign` runs them atomically one at a time in a given order, which is
  the task-granularity interleaving model used for the concurrency claims.
  `submissionOrder` is the order in which the handler submits them.
-/

/-! ### Configuration constants (app.py lines 13-19) -/

def API_KEY : String := "star"

def BACKGROUND_FILENAME : String := "outfit.png"

def CANVAS_SIZE : Option (Nat × Nat) := some (800, 800)

def BACKGROUND_MODE : String := "cover"

/-! ### Outfit-id matching (app.py lines 58-79) -/

/-- `required_starts` (app.py line 60). -/
def required_starts : List String := ["211", "214", "211", "203", "204", "205", "203"]

/-- `fallback_ids` (app.py line 61). -/
def fallback_ids : List String :=
  ["211000000", "214000000", "208000000", "203000000", "204000000", "205000000", "212000000"]

/-- Python's `s.startswith(code)`: `code` is a prefix of `s`. -/
def pyStartswith (s code : String) : Bool := code.data.isPrefixOf s.data

/-- The matching loop body of `fetch_outfit_image` (app.py lines 66-75): the
first equipped id that starts with `required_starts[idx]` and is not yet in
`used_ids`. -/
def matchStep (outfit_ids used : List String) (idx : Nat) : Option String :=
  outfit_ids.find? fun oid => pyStartswith oid (required_starts.getD idx "") && !(used.contains oid)

/-- The id whose image slot `idx` fetches (app.py lines 66-78): the first
unused matching equipped id, or `fallback_ids[idx]` when none remains. -/
def selectedOf (outfit_ids used : List String) (idx : Nat) : String :=
  match matchStep outfit_ids used idx with
  | some oid => oid
  | none => fallback_ids.getD idx ""

/-- The `used_ids` set after slot `idx` ran (app.py line 74: a match is added,
a fallback is not). -/
def usedAfter (outfit_ids used : List String) (idx : Nat) : List String :=
  match matchStep outfit_ids used idx with
  | some oid => oid :: used
  | none => used

/-- Run the seven `fetch_outfit_image` tasks atomically in the given order,
threading the shared `used_ids` set; returns each processed slot index paired
with the id it selected. -/
def runAssign (outfit_ids : List String) : List Nat → List String → List (Nat × String)
  | [], _ => []
  | idx :: rest, used =>
      (idx, selectedOf outfit_ids used idx) :: runAssign outfit_ids rest (usedAfter outfit_ids used idx)

/-- The `used_ids` set after running the tasks in the given order. -/
def runUsed (outfit_ids : List String) : List Nat → List String → List String
  | [], used => used
  | idx :: rest, used => runUsed outfit_ids rest (usedAfter outfit_ids used idx)

/-- The order in which the handler submits its seven tasks (app.py lines 81-83). -/
def submissionOrder : List Nat := [0, 1, 2, 3, 4, 5, 6]

/-- The id selected for slot `idx` when the tasks execute in the given order. -/
def selectedId (outfit_ids : List String) (order : List Nat) (idx : Nat) : String :=
  ((runAssign outfit_ids order []).lookup idx).getD ""

/-- The icon URL fetched for a matched id (app.py line 78). -/
def imageUrl (matched : String) : String := "https://iconapi.wasmer.app/" ++ matched

/-- The player-info URL (app.py line 24). -/
def playerInfoUrl (uid : String) : String :=
  "https://star-info-api.vercel.app/accinfo?uid=" ++ uid ++ "&region=ind"

/-! ### Geometry (app.py lines 94-146) -/

/-- Python `int(q)` on a real value: truncation toward zero. -/
def pyInt (q : ℚ) : ℤ := if 0 ≤ q then ⌊q⌋ else ⌈q⌉

/-- `scale` (app.py lines 105-108): `min` of the axis ratios for `'contain'`,
`max` for anything else (the code's `else` branch is `'cover'`). -/
def scaleFor (mode : String) (cw ch bw bh : Nat) : ℚ :=
  if mode = "contain" then min ((cw : ℚ) / bw) ((ch : ℚ) / bh)
  else max ((cw : ℚ) / bw) ((ch : ℚ) / bh)

/-- `new_w = max(1, int(bg_w * scale))` (app.py line 109). -/
def newW (mode : String) (cw ch bw bh : Nat) : Nat :=
  (max 1 (pyInt (bw * scaleFor mode cw ch bw bh))).toNat

/-- `new_h = max(1, int(bg_h * scale))` (app.py line 110). -/
def newH (mode : String) (cw ch bw bh : Nat) : Nat :=
  (max 1 (pyInt (bh * scaleFor mode cw ch bw bh))).toNat

/-- `offset_x = (canvas_w - new_w) // 2` (app.py line 114); Python `//` is
floor division, and the operand may be negative in `'cover'` mode. -/
def offsetX (mode : String) (cw ch bw bh : Nat) : ℤ :=
  Int.fdiv ((cw : ℤ) - (newW mode cw ch bw bh : ℤ)) 2

/-- `offset_y = (canvas_h - new_h) // 2` (app.py line 115). -/
def offsetY (mode : String) (cw ch bw bh : Nat) : ℤ :=
  Int.fdiv ((ch : ℤ) - (newH mode cw ch bw bh : ℤ)) 2

/-- `scale_x = new_w / bg_w` (app.py line 116). -/
def scaleX (mode : String) (cw ch bw bh : Nat) : ℚ :=
  (newW mode cw ch bw bh : ℚ) / bw

/-- `scale_y = new_h / bg_h` (app.py line 117). -/
def scaleY (mode : String) (cw ch bw bh : Nat) : ℚ :=
  (newH mode cw ch bw bh : ℚ) / bh

/-- One entry of the `positions` table (app.py lines 124-132). -/
structure SlotPos where
  x : Nat
  y : Nat
  height : Nat
  width : Nat
deriving DecidableEq

/-- The fixed 7-entry `positions` table (app.py lines 124-132). -/
def positions : List SlotPos :=
  [⟨350, 30, 150, 150⟩, ⟨575, 130, 150, 150⟩, ⟨665, 350, 150, 150⟩, ⟨575, 550, 150, 150⟩,
   ⟨350, 654, 150, 150⟩, ⟨135, 570, 150, 150⟩, ⟨135, 130, 150, 150⟩]

/-- `paste_x = offset_x + int(pos['x'] * scale_x)` (app.py lines 140-141). -/
def pastePos (offset : ℤ) (scale : ℚ) (coord : Nat) : ℤ := offset + pyInt (coord * scale)

/-- `paste_w = max(1, int(pos['width'] * scale_x))` (app.py lines 142-143). -/
def pasteDim (scale : ℚ) (d : Nat) : Nat := (max 1 (pyInt (d * scale))).toNat

/-! ### PIL and HTTP model (app.py lines 1-56, 85-152) -/

/-- A PIL image as the term that built it: a decoded-and-RGBA-converted
download or file, or a LANCZOS resize of another image. -/
inductive PILImage where
  | decoded (tag : String) (w h : Nat)
  | resized (img : PILImage) (w h : Nat)
deriving DecidableEq

/-- `img.size` (width, height). -/
def PILImage.size : PILImage → Nat × Nat
  | .decoded _ w h => (w, h)
  | .resized _ w h => (w, h)

/-- A canvas as the term that built it: `Image.new` or a masked `paste`
(the code always passes the pasted image itself as the mask). -/
inductive Canvas where
  | newRGBA (w h r g b a : Nat)
  | pasteMasked (c : Canvas) (img : PILImage) (x y : ℤ)
deriving DecidableEq

/-- How many paste operations built this canvas. -/
def Canvas.pasteCount : Canvas → Nat
  | .newRGBA _ _ _ _ _ _ => 0
  | .pasteMasked c _ _ _ => c.pasteCount + 1

/-- `fetch_and_process_image(url, size=(150,150))` (app.py lines 32-41, 79):
the oracle yields the decoded RGBA image for a URL (or `none` on any request
or decode failure), which is then resized to 150x150. -/
def fetch_and_process_image (oracle : String → Option PILImage) (url : String) :
    Option PILImage :=
  (oracle url).map fun img => PILImage.resized img 150 150

/-- The body of an HTTP response: a JSON error object or a PNG image. -/
inductive Body where
  | json (msg : String)
  | png (c : Canvas)
deriving DecidableEq

/-- An HTTP response: status code and body. -/
structure Response where
  status : Nat
  body : Body
deriving DecidableEq

/-- An outbound side effect of handling one request. -/
inductive Effect where
  | fetchPlayer (url : String)
  | fetchImage (url : String)
  | openBackground (filename : String)
deriving DecidableEq

/-- Whether an effect is an outfit-piece image download. -/
def isImageFetch : Effect → Bool
  | .fetchImage _ => true
  | _ => false

/-- The `"AccountProfileInfo"` object of the player-info JSON. -/
structure ProfileInfo where
  equippedOutfit : Option (List String)

/-- The parsed player-info JSON. -/
structure PlayerData where
  accountProfileInfo : Option ProfileInfo

/-- `player_data.get("AccountProfileInfo", {}).get("EquippedOutfit", []) or []`
(app.py line 58): missing keys and falsy values (`None`, `[]`) all collapse
to the empty list. -/
def getEquippedOutfit (pd : PlayerData) : List String :=
  match pd.accountProfileInfo with
  | none => []
  | some pi => pi.equippedOutfit.getD []

/-- `canvas = Image.new("RGBA", ..., (0,0,0,255)); canvas.paste(bg, (ox, oy), bg)`
(app.py lines 120-121). -/
def composeCanvas (cw ch : Nat) (bgR : PILImage) (ox oy : ℤ) : Canvas :=
  Canvas.pasteMasked (Canvas.newRGBA cw ch 0 0 0 255) bgR ox oy

/-- The paste loop (app.py lines 135-146): failed slots (`None`) are skipped;
each fetched image is resized to the scaled slot dimensions and pasted at the
scaled slot position. -/
def pasteSlots (ox oy : ℤ) (sx sy : ℚ) : Canvas → List (Option PILImage × SlotPos) → Canvas
  | cv, [] => cv
  | cv, (none, _) :: rest => pasteSlots ox oy sx sy cv rest
  | cv, (some img, p) :: rest =>
      pasteSlots ox oy sx sy
        (Canvas.pasteMasked cv (PILImage.resized img (pasteDim sx p.width) (pasteDim sy p.height))
          (pastePos ox sx p.x) (pastePos oy sy p.y)) rest

/-- The request handler `outfit_image` (app.py lines 43-152), as a pure
function of the query parameters and the network/filesystem oracles: the
player-info response, the background image (`none` collapses both 500 error
branches of lines 87-92), and the per-URL image oracle.  Returns the HTTP
response together with the ordered list of outbound effects performed. -/
def outfit_image (key uid : Option String) (playerResp : Option PlayerData)
    (bgResp : Option PILImage) (oracle : String → Option PILImage) :
    Response × List Effect :=
  if key ≠ some API_KEY then (⟨401, .json "Invalid or missing API key"⟩, [])
  else match uid with
  | none => (⟨400, .json "Missing uid parameter"⟩, [])
  | some u =>
    if u = "" then (⟨400, .json "Missing uid parameter"⟩, [])
    else match playerResp with
    | none => (⟨500, .json "Failed to fetch player info"⟩, [.fetchPlayer (playerInfoUrl u)])
    | some pd =>
      let outfit_ids := getEquippedOutfit pd
      let selected := (runAssign outfit_ids submissionOrder []).map Prod.snd
      let results := selected.map fun m => fetch_and_process_image oracle (imageUrl m)
      let effs := Effect.fetchPlayer (playerInfoUrl u) ::
        (selected.map fun m => Effect.fetchImage (imageUrl m)) ++
          [Effect.openBackground BACKGROUND_FILENAME]
      match bgResp with
      | none => (⟨500, .json ("Failed to open background image: " ++ BACKGROUND_FILENAME)⟩, effs)
      | some bg =>
        let bw := bg.size.1
        let bh := bg.size.2
        match CANVAS_SIZE with
        | none =>
          (⟨200, .png (pasteSlots 0 0 1 1 (composeCanvas bw bh bg 0 0) (results.zip positions))⟩,
            effs)
        | some (cw, ch) =>
          let nw := newW BACKGROUND_MODE cw ch bw bh
          let nh := newH BACKGROUND_MODE cw ch bw bh
          let ox := offsetX BACKGROUND_MODE cw ch bw bh
          let oy := offsetY BACKGROUND_MODE cw ch bw bh
          (⟨200, .png (pasteSlots ox oy (scaleX BACKGROUND_MODE cw ch bw bh)
              (scaleY BACKGROUND_MODE cw ch bw bh)
              (composeCanvas cw ch (PILImage.resized bg nw nh) ox oy)
              (results.zip positions))⟩, effs)

/-- Module-level mutable application state that could persist across requests.
The module defines `app`, `executor` and `session` (app.py lines 8-10) and the
handler writes none of them; `store` stands for any such cross-request cell. -/
structure ServerState where
  store : List (String × String)

/-- The handler with the cross-request state threaded explicitly: the code
contains no assignment to module state, so the state passes through. -/
def outfit_imageSt (σ : ServerState) (key uid : Option String) (playerResp : Option PlayerData)
    (bgResp : Option PILImage) (oracle : String → Option PILImage) :
    (Response × List Effect) × ServerState :=
  (outfit_image key uid playerResp bgResp oracle, σ)

/-! ### Geometry lemmas -/

theorem pyInt_eq_floor {q : ℚ} (h : 0 ≤ q) : pyInt q = ⌊q⌋ := if_pos h

theorem scaleFor_nonneg (mode : String) (cw ch bw bh : Nat) : 0 ≤ scaleFor mode cw ch bw bh := by
  unfold scaleFor
  have h1 : (0 : ℚ) ≤ (cw : ℚ) / bw := div_nonneg (Nat.cast_nonneg _) (Nat.cast_nonneg _)
  have h2 : (0 : ℚ) ≤ (ch : ℚ) / bh := div_nonneg (Nat.cast_nonneg _) (Nat.cast_nonneg _)
  split
  · exact le_min h1 h2
  · exact le_trans h1 (le_max_left _ _)

theorem offsetX_eq_ediv (mode : String) (cw ch bw bh : Nat) :
    offsetX mode cw ch bw bh = ((cw : ℤ) - (newW mode cw ch bw bh : ℤ)) / 2 :=
  Int.fdiv_eq_ediv _ (by norm_num)

theorem offsetY_eq_ediv (mode : String) (cw ch bw bh : Nat) :
    offsetY mode cw ch bw bh = ((ch : ℤ) - (newH mode cw ch bw bh : ℤ)) / 2 :=
  Int.fdiv_eq_ediv _ (by norm_num)

/-- In `'contain'` mode the scaled width of the background stays within the
canvas width: `⌊bg_w * scale⌋ ≤ canvas_w`, provided the dimensions are those
of real images (positive). -/
theorem floor_scaled_le_contain_w (cw ch bw bh : Nat) (hbw : 1 ≤ bw) :
    ⌊(bw : ℚ) * scaleFor "contain" cw ch bw bh⌋ ≤ (cw : ℤ) := by
  have hbw0 : (0 : ℚ) < bw := by exact_mod_cast hbw
  have hmul : (bw : ℚ) * scaleFor "contain" cw ch bw bh ≤ cw := by
    have hle : scaleFor "contain" cw ch bw bh ≤ (cw : ℚ) / bw := by
      simp only [scaleFor, if_pos rfl]
      exact min_le_left _ _
    calc (bw : ℚ) * scaleFor "contain" cw ch bw bh ≤ (bw : ℚ) * ((cw : ℚ) / bw) :=
          mul_le_mul_of_nonneg_left hle (le_of_lt hbw0)
      _ = cw := by field_simp
  calc ⌊(bw : ℚ) * scaleFor "contain" cw ch bw bh⌋ ≤ ⌊((cw : ℕ) : ℚ)⌋ := Int.floor_le_floor hmul
    _ = (cw : ℤ) := Int.floor_natCast _

/-- Same bound for the height. -/
theorem floor_scaled_le_contain_h (cw ch bw bh : Nat) (hbh : 1 ≤ bh) :
    ⌊(bh : ℚ) * scaleFor "contain" cw ch bw bh⌋ ≤ (ch : ℤ) := by
  have hbh0 : (0 : ℚ) < bh := by exact_mod_cast hbh
  have hmul : (bh : ℚ) * scaleFor "contain" cw ch bw bh ≤ ch := by
    have hle : scaleFor "contain" cw ch bw bh ≤ (ch : ℚ) / bh := by
      simp only [scaleFor, if_pos rfl]
      exact min_le_right _ _
    calc (bh : ℚ) * scaleFor "contain" cw ch bw bh ≤ (bh : ℚ) * ((ch : ℚ) / bh) :=
          mul_le_mul_of_nonneg_left hle (le_of_lt hbh0)
      _ = ch := by field_simp
  calc ⌊(bh : ℚ) * scaleFor "contain" cw ch bw bh⌋ ≤ ⌊((ch : ℕ) : ℚ)⌋ := Int.floor_le_floor hmul
    _ = (ch : ℤ) := Int.floor_natCast _

/-- In `'cover'` mode the scaled width reaches the canvas width. -/
theorem le_floor_scaled_cover_w (cw ch bw bh : Nat) (hbw : 1 ≤ bw) :
    (cw : ℤ) ≤ ⌊(bw : ℚ) * scaleFor "cover" cw ch bw bh⌋ := by
  have hbw0 : (0 : ℚ) < bw := by exact_mod_cast hbw
  refine Int.le_floor.mpr ?_
  have hge : (cw : ℚ) / bw ≤ scaleFor "cover" cw ch bw bh := by
    simp only [scaleFor, if_neg (by decide : ¬("cover" = "contain"))]
    exact le_max_left _ _
  have : (bw : ℚ) * ((cw : ℚ) / bw) ≤ (bw : ℚ) * scaleFor "cover" cw ch bw bh :=
    mul_le_mul_of_nonneg_left hge (le_of_lt hbw0)
  calc ((cw : ℤ) : ℚ) = (bw : ℚ) * ((cw : ℚ) / bw) := by push_cast; field_simp
    _ ≤ (bw : ℚ) * scaleFor "cover" cw ch bw bh := this

/-- Same bound for the height. -/
theorem le_floor_scaled_cover_h (cw ch bw bh : Nat) (hbh : 1 ≤ bh) :
    (ch : ℤ) ≤ ⌊(bh : ℚ) * scaleFor "cover" cw ch bw bh⌋ := by
  have hbh0 : (0 : ℚ) < bh := by exact_mod_cast hbh
  refine Int.le_floor.mpr ?_
  have hge : (ch : ℚ) / bh ≤ scaleFor "cover" cw ch bw bh := by
    simp only [scaleFor, if_neg (by decide : ¬("cover" = "contain"))]
    exact le_max_right _ _
  have : (bh : ℚ) * ((ch : ℚ) / bh) ≤ (bh : ℚ) * scaleFor "cover" cw ch bw bh :=
    mul_le_mul_of_nonneg_left hge (le_of_lt hbh0)
  calc ((ch : ℤ) : ℚ) = (bh : ℚ) * ((ch : ℚ) / bh) := by push_cast; field_simp
    _ ≤ (bh : ℚ) * scaleFor "cover" cw ch bw bh := this

theorem newW_eq_floor (mode : String) (cw ch bw bh : Nat) :
    newW mode cw ch bw bh = (max 1 ⌊(bw : ℚ) * scaleFor mode cw ch bw bh⌋).toNat := by
  unfold newW
  rw [pyInt_eq_floor (mul_nonneg (Nat.cast_nonneg _) (scaleFor_nonneg mode cw ch bw bh))]

theorem newH_eq_floor (mode : String) (cw ch bw bh : Nat) :
    newH mode cw ch bw bh = (max 1 ⌊(bh : ℚ) * scaleFor mode cw ch bw bh⌋).toNat := by
  unfold newH
  rw [pyInt_eq_floor (mul_nonneg (Nat.cast_nonneg _) (scaleFor_nonneg mode cw ch bw bh))]

/-- Claim C1 — Per-slot coordinate remapping: for every slot index `i < 7`,
the handler pastes the slot image at `(offset_x + ⌊positions[i].x * scale_x⌋,
offset_y + ⌊positions[i].y * scale_y⌋)` with size
`(max 1 ⌊positions[i].width * scale_x⌋, max 1 ⌊positions[i].height * scale_y⌋)`,
where `scale_x = new_w / bg_w` and `scale_y = new_h / bg_h` (the Python
`int(...)` truncation coincides with `⌊...⌋` because every operand is
non-negative). -/
theorem slot_remap (mode : String) (cw ch bw bh i : Nat) (hi : i < 7) :
    pastePos (offsetX mode cw ch bw bh) (scaleX mode cw ch bw bh)
        (positions.getD i ⟨0, 0, 0, 0⟩).x
      = offsetX mode cw ch bw bh +
        ⌊((positions.getD i ⟨0, 0, 0, 0⟩).x : ℚ) * ((newW mode cw ch bw bh : ℚ) / (bw : ℚ))⌋
    ∧ pastePos (offsetY mode cw ch bw bh) (scaleY mode cw ch bw bh)
        (positions.getD i ⟨0, 0, 0, 0⟩).y
      = offsetY mode cw ch bw bh +
        ⌊((positions.getD i ⟨0, 0, 0, 0⟩).y : ℚ) * ((newH mode cw ch bw bh : ℚ) / (bh : ℚ))⌋
    ∧ pasteDim (scaleX mode cw ch bw bh) (positions.getD i ⟨0, 0, 0, 0⟩).width
      = (max 1 ⌊((positions.getD i ⟨0, 0, 0, 0⟩).width : ℚ) *
          ((newW mode cw ch bw bh : ℚ) / (bw : ℚ))⌋).toNat
    ∧ pasteDim (scaleY mode cw ch bw bh) (positions.getD i ⟨0, 0, 0, 0⟩).height
      = (max 1 ⌊((positions.getD i ⟨0, 0, 0, 0⟩).height : ℚ) *
          ((newH mode cw ch bw bh : ℚ) / (bh : ℚ))⌋).toNat := by
  have hsx : (0 : ℚ) ≤ scaleX mode cw ch bw bh :=
    div_nonneg (Nat.cast_nonneg _) (Nat.cast_nonneg _)
  have hsy : (0 : ℚ) ≤ scaleY mode cw ch bw bh :=
    div_nonneg (Nat.cast_nonneg _) (Nat.cast_nonneg _)
  refine ⟨?_, ?_, ?_, ?_⟩
  · unfold pastePos
    rw [pyInt_eq_floor (mul_nonneg (Nat.cast_nonneg _) hsx)]
    rfl
  · unfold pastePos
    rw [pyInt_eq_floor (mul_nonneg (Nat.cast_nonneg _) hsy)]
    rfl
  · unfold pasteDim
    rw [pyInt_eq_floor (mul_nonneg (Nat.cast_nonneg _) hsx)]
    rfl
  · unfold pasteDim
    rw [pyInt_eq_floor (mul_nonneg (Nat.cast_nonneg _) hsy)]
    rfl

/-- Witness for C1 at slot 0 with an 800x800 canvas over a 1024x768 background. -/
theorem slot_remap_witness :
    0 < 7 ∧
    (pastePos (offsetX "cover" 800 800 1024 768) (scaleX "cover" 800 800 1024 768)
        (positions.getD 0 ⟨0, 0, 0, 0⟩).x
      = offsetX "cover" 800 800 1024 768 +
        ⌊((positions.getD 0 ⟨0, 0, 0, 0⟩).x : ℚ) * ((newW "cover" 800 800 1024 768 : ℚ) / (1024 : ℚ))⌋
    ∧ pastePos (offsetY "cover" 800 800 1024 768) (scaleY "cover" 800 800 1024 768)
        (positions.getD 0 ⟨0, 0, 0, 0⟩).y
      = offsetY "cover" 800 800 1024 768 +
        ⌊((positions.getD 0 ⟨0, 0, 0, 0⟩).y : ℚ) * ((newH "cover" 800 800 1024 768 : ℚ) / (768 : ℚ))⌋
    ∧ pasteDim (scaleX "cover" 800 800 1024 768) (positions.getD 0 ⟨0, 0, 0, 0⟩).width
      = (max 1 ⌊((positions.getD 0 ⟨0, 0, 0, 0⟩).width : ℚ) *
          ((newW "cover" 800 800 1024 768 : ℚ) / (1024 : ℚ))⌋).toNat
    ∧ pasteDim (scaleY "cover" 800 800 1024 768) (positions.getD 0 ⟨0, 0, 0, 0⟩).height
      = (max 1 ⌊((positions.getD 0 ⟨0, 0, 0, 0⟩).height : ℚ) *
          ((newH "cover" 800 800 1024 768 : ℚ) / (768 : ℚ))⌋).toNat) := by
  refine ⟨by decide, ?_⟩
  have h := slot_remap "cover" 800 800 1024 768 0 (by decide)
  exact_mod_cast h

/-- Claim C2 — Letterbox (contain) fitting: with exact rational arithmetic the
`'contain'` scale is `min(canvas_w/bg_w, canvas_h/bg_h)`, the resized
background fits inside the canvas (`new_w ≤ canvas_w`, `new_h ≤ canvas_h`),
the centering offsets are non-negative, and the background's far edges stay
inside the canvas. -/
theorem contain_letterbox (cw ch bw bh : Nat)
    (hcw : 1 ≤ cw) (hch : 1 ≤ ch) (hbw : 1 ≤ bw) (hbh : 1 ≤ bh) :
    scaleFor "contain" cw ch bw bh = min ((cw : ℚ) / bw) ((ch : ℚ) / bh)
    ∧ newW "contain" cw ch bw bh ≤ cw
    ∧ newH "contain" cw ch bw bh ≤ ch
    ∧ 0 ≤ offsetX "contain" cw ch bw bh
    ∧ 0 ≤ offsetY "contain" cw ch bw bh
    ∧ offsetX "contain" cw ch bw bh + (newW "contain" cw ch bw bh : ℤ) ≤ (cw : ℤ)
    ∧ offsetY "contain" cw ch bw bh + (newH "contain" cw ch bw bh : ℤ) ≤ (ch : ℤ) := by
  have hw := floor_scaled_le_contain_w cw ch bw bh hbw
  have hh := floor_scaled_le_contain_h cw ch bw bh hbh
  have hnw : newW "contain" cw ch bw bh ≤ cw := by
    rw [newW_eq_floor]; omega
  have hnh : newH "contain" cw ch bw bh ≤ ch := by
    rw [newH_eq_floor]; omega
  refine ⟨by simp [scaleFor], hnw, hnh, ?_, ?_, ?_, ?_⟩
  · rw [offsetX_eq_ediv]; omega
  · rw [offsetY_eq_ediv]; omega
  · rw [offsetX_eq_ediv]; omega
  · rw [offsetY_eq_ediv]; omega

/-- Witness for C2: 800x800 canvas, 1024x768 background. -/
theorem contain_letterbox_witness :
    ((1 ≤ 800 ∧ 1 ≤ 800) ∧ 1 ≤ 1024 ∧ 1 ≤ 768) ∧
    (scaleFor "contain" 800 800 1024 768 = min ((800 : ℚ) / 1024) ((800 : ℚ) / 768)
    ∧ newW "contain" 800 800 1024 768 ≤ 800
    ∧ newH "contain" 800 800 1024 768 ≤ 800
    ∧ 0 ≤ offsetX "contain" 800 800 1024 768
    ∧ 0 ≤ offsetY "contain" 800 800 1024 768
    ∧ offsetX "contain" 800 800 1024 768 + (newW "contain" 800 800 1024 768 : ℤ) ≤ (800 : ℤ)
    ∧ offsetY "contain" 800 800 1024 768 + (newH "contain" 800 800 1024 768 : ℤ) ≤ (800 : ℤ)) := by
  refine ⟨by decide, ?_⟩
  have h := contain_letterbox 800 800 1024 768 (by decide) (by decide) (by decide) (by decide)
  exact_mod_cast h

/-- Claim C3 — Cover fitting: with exact rational arithmetic the `'cover'`
scale is `max(canvas_w/bg_w, canvas_h/bg_h)`, the resized background reaches
past the canvas on both axes (`new_w ≥ canvas_w`, `new_h ≥ canvas_h`), the
centering offsets are non-positive, and the background's far edges reach the
canvas edges, so the whole canvas is covered. -/
theorem cover_fill (cw ch bw bh : Nat)
    (hcw : 1 ≤ cw) (hch : 1 ≤ ch) (hbw : 1 ≤ bw) (hbh : 1 ≤ bh) :
    scaleFor "cover" cw ch bw bh = max ((cw : ℚ) / bw) ((ch : ℚ) / bh)
    ∧ cw ≤ newW "cover" cw ch bw bh
    ∧ ch ≤ newH "cover" cw ch bw bh
    ∧ offsetX "cover" cw ch bw bh ≤ 0
    ∧ offsetY "cover" cw ch bw bh ≤ 0
    ∧ (cw : ℤ) ≤ offsetX "cover" cw ch bw bh + (newW "cover" cw ch bw bh : ℤ)
    ∧ (ch : ℤ) ≤ offsetY "cover" cw ch bw bh + (newH "cover" cw ch bw bh : ℤ) := by
  have hw := le_floor_scaled_cover_w cw ch bw bh hbw
  have hh := le_floor_scaled_cover_h cw ch bw bh hbh
  have hnw : cw ≤ newW "cover" cw ch bw bh := by
    rw [newW_eq_floor]; omega
  have hnh : ch ≤ newH "cover" cw ch bw bh := by
    rw [newH_eq_floor]; omega
  refine ⟨by simp [scaleFor], hnw, hnh, ?_, ?_, ?_, ?_⟩
  · rw [offsetX_eq_ediv]; omega
  · rw [offsetY_eq_ediv]; omega
  · rw [offsetX_eq_ediv]; omega
  · rw [offsetY_eq_ediv]; omega

/-! ### Matching-loop lemmas -/

theorem contains_true_iff (l : List String) (x : String) : l.contains x = true ↔ x ∈ l := by
  simp [List.contains]

theorem contains_false_iff (l : List String) (x : String) : l.contains x = false ↔ x ∉ l := by
  rw [← Bool.not_eq_true, contains_true_iff]

/-- Two distinct prefixes of the same length cannot both be prefixes of one
string; in particular a string matching one three-character slot code matches
no other slot code. -/
theorem startswith_disjoint (c₁ c₂ s : String) (hlen : c₁.length = c₂.length) (hne : c₁ ≠ c₂)
    (h : pyStartswith s c₁ = true) : pyStartswith s c₂ = false := by
  rw [← Bool.not_eq_true]
  intro h₂
  have p₁ : c₁.data <+: s.data := by simpa [pyStartswith] using h
  have p₂ : c₂.data <+: s.data := by simpa [pyStartswith] using h₂
  have hlen' : c₁.data.length = c₂.data.length := hlen
  exact hne (String.ext ((List.prefix_of_prefix_length_le p₁ p₂ (le_of_eq hlen')).eq_of_length
    hlen'))

theorem find?_ext {α : Type} (p q : α → Bool) :
    ∀ l : List α, (∀ x ∈ l, p x = q x) → l.find? p = l.find? q
  | [], _ => rfl
  | a :: l, h => by
    have ha := h a (List.mem_cons_self a l)
    cases hq : q a with
    | true => rw [List.find?_cons_of_pos _ (ha.trans hq), List.find?_cons_of_pos _ hq]
    | false =>
      rw [List.find?_cons_of_neg _ (by simp [ha, hq]), List.find?_cons_of_neg _ (by simp [hq])]
      exact find?_ext p q l fun x hx => h x (List.mem_cons_of_mem _ hx)

theorem matchStep_some {ids used : List String} {idx : Nat} {m : String}
    (h : matchStep ids used idx = some m) :
    m ∈ ids ∧ pyStartswith m (required_starts.getD idx "") = true ∧ m ∉ used := by
  have h₁ := List.find?_some h
  have h₂ := List.mem_of_find?_eq_some h
  simp only [Bool.and_eq_true, Bool.not_eq_true'] at h₁
  exact ⟨h₂, h₁.1, (contains_false_iff used m).mp h₁.2⟩

/-- If some equipped id starts with the slot's code and is still unused, the
matching loop finds one. -/
theorem matchStep_isSome (idx : Nat) {ids used : List String} {x : String}
    (hx : x ∈ ids) (hs : pyStartswith x (required_starts.getD idx "") = true) (hu : x ∉ used) :
    ∃ m, matchStep ids used idx = some m := by
  rw [← Option.isSome_iff_exists]
  rw [matchStep, List.find?_isSome]
  refine ⟨x, hx, ?_⟩
  show (pyStartswith x (required_starts.getD idx "") && !(used.contains x)) = true
  rw [hs, Bool.true_and, Bool.not_eq_true']
  exact (contains_false_iff used x).mpr hu

theorem selectedOf_eq_of_matchStep {ids used : List String} {idx : Nat} {m : String}
    (h : matchStep ids used idx = some m) : selectedOf ids used idx = m := by
  simp [selectedOf, h]

theorem usedAfter_eq_of_matchStep {ids used : List String} {idx : Nat} {m : String}
    (h : matchStep ids used idx = some m) : usedAfter ids used idx = m :: used := by
  simp [usedAfter, h]

theorem mem_usedAfter_of_mem {ids used : List String} {idx : Nat} {x : String} (hx : x ∈ used) :
    x ∈ usedAfter ids used idx := by
  unfold usedAfter
  cases matchStep ids used idx with
  | none => exact hx
  | some m => exact List.mem_cons_of_mem _ hx

theorem runAssign_append (ids : List String) (o₁ o₂ : List Nat) :
    ∀ used, runAssign ids (o₁ ++ o₂) used =
      runAssign ids o₁ used ++ runAssign ids o₂ (runUsed ids o₁ used) := by
  induction o₁ with
  | nil => intro used; rfl
  | cons idx rest ih =>
    intro used
    simp only [List.cons_append, runAssign, runUsed, List.append_eq, List.cons_append, ih]

theorem runUsed_append (ids : List String) (o₁ o₂ : List Nat) :
    ∀ used, runUsed ids (o₁ ++ o₂) used = runUsed ids o₂ (runUsed ids o₁ used) := by
  induction o₁ with
  | nil => intro used; rfl
  | cons idx rest ih => intro used; simp only [List.cons_append, runUsed, List.append_eq, ih]

theorem runAssign_keys (ids : List String) :
    ∀ (order : List Nat) (used : List String), (runAssign ids order used).map Prod.fst = order
  | [], _ => rfl
  | idx :: rest, used => by
    simp only [runAssign, List.map_cons]
    rw [runAssign_keys ids rest]

theorem runAssign_length (ids : List String) :
    ∀ (order : List Nat) (used : List String), (runAssign ids order used).length = order.length
  | [], _ => rfl
  | idx :: rest, used => by
    simp only [runAssign, List.length_cons]
    rw [runAssign_length ids rest]

theorem runUsed_exists_append (ids : List String) :
    ∀ (order : List Nat) (used : List String), ∃ added, runUsed ids order used = added ++ used
  | [], used => ⟨[], rfl⟩
  | idx :: rest, used => by
    unfold runUsed usedAfter
    cases h : matchStep ids used idx with
    | none =>
      obtain ⟨added, ha⟩ := runUsed_exists_append ids rest used
      exact ⟨added, ha⟩
    | some m =>
      obtain ⟨added, ha⟩ := runUsed_exists_append ids rest (m :: used)
      exact ⟨added ++ [m], by rw [ha]; simp⟩

theorem mem_runUsed_of_mem (ids : List String) (order : List Nat) (used : List String)
    (x : String) (hx : x ∈ used) : x ∈ runUsed ids order used := by
  obtain ⟨added, ha⟩ := runUsed_exists_append ids order used
  rw [ha]
  exact List.mem_append_right _ hx

theorem runUsed_nodup (ids : List String) :
    ∀ (order : List Nat) (used : List String), used.Nodup → (runUsed ids order used).Nodup
  | [], used, h => h
  | idx :: rest, used, h => by
    unfold runUsed usedAfter
    cases hm : matchStep ids used idx with
    | none => exact runUsed_nodup ids rest used h
    | some m =>
      exact runUsed_nodup ids rest (m :: used) (List.nodup_cons.mpr ⟨(matchStep_some hm).2.2, h⟩)

/-- Every element of the `used_ids` set was either there initially or is an
equipped id matched by one of the processed slots' codes. -/
theorem runUsed_mem_spec (ids : List String) :
    ∀ (order : List Nat) (used : List String) (x : String), x ∈ runUsed ids order used →
      x ∈ used ∨ (x ∈ ids ∧ ∃ j ∈ order, pyStartswith x (required_starts.getD j "") = true)
  | [], _, x, hx => Or.inl hx
  | idx :: rest, used, x, hx => by
    rw [runUsed] at hx
    rcases runUsed_mem_spec ids rest (usedAfter ids used idx) x hx with h | ⟨hxi, j, hj, hs⟩
    · unfold usedAfter at h
      rcases hm : matchStep ids used idx with _ | m
      · rw [hm] at h
        exact Or.inl h
      · rw [hm] at h
        rcases List.mem_cons.mp h with rfl | h
        · have := matchStep_some hm
          exact Or.inr ⟨this.1, idx, List.mem_cons_self _ _, this.2.1⟩
        · exact Or.inl h
    · exact Or.inr ⟨hxi, j, List.mem_cons_of_mem _ hj, hs⟩

/-- Looking up a slot in the task run: entries before the slot's occurrence
have other indices, so the lookup returns what the slot itself selected. -/
theorem selectedId_decomp (ids : List String) (pre post : List Nat) (idx : Nat)
    (hnot : idx ∉ pre) :
    selectedId ids (pre ++ idx :: post) idx = selectedOf ids (runUsed ids pre []) idx := by
  unfold selectedId
  rw [runAssign_append, List.lookup_append]
  have hpre : (runAssign ids pre []).lookup idx = none := by
    rw [List.lookup_eq_none_iff]
    intro p hp
    have hkey : p.1 ∈ pre := by
      rw [← runAssign_keys ids pre []]
      exact List.mem_map_of_mem _ hp
    have : idx ≠ p.1 := fun h => hnot (h ▸ hkey)
    simpa using this
  rw [hpre, Option.none_or, runAssign, List.lookup_cons_self, Option.getD_some]

/-- When a slot's code is matched by no other slot that could run before it,
the shared `used_ids` set cannot contain an id matching this slot's code, so
the slot's selection is a fixed function of the equipped list, independent of
the execution order. -/
theorem lookup_run_unique (ids : List String) (idx : Nat) (c : String)
    (hc : required_starts.getD idx "" = c)
    (hcross : ∀ j, j < 7 → j ≠ idx → ∀ s : String,
      pyStartswith s (required_starts.getD j "") = true → pyStartswith s c = false) :
    ∀ (order : List Nat) (used : List String), idx ∈ order → (∀ j ∈ order, j < 7) →
      (∀ x ∈ used, pyStartswith x c = false) →
      (runAssign ids order used).lookup idx =
        some ((ids.find? fun o => pyStartswith o c).getD (fallback_ids.getD idx "")) := by
  intro order
  induction order with
  | nil => intro used h; exact absurd h (List.not_mem_nil idx)
  | cons j rest ih =>
    intro used hmem hlt hused
    by_cases hji : j = idx
    · subst hji
      rw [runAssign, List.lookup_cons_self]
      have hstep : matchStep ids used j = ids.find? fun o => pyStartswith o c := by
        rw [matchStep, hc]
        apply find?_ext
        intro x _
        cases hs : pyStartswith x c with
        | false => rw [Bool.false_and]
        | true =>
          rw [Bool.true_and]
          have hxu : x ∉ used := fun hmem => by
            have := hused x hmem
            rw [this] at hs
            exact Bool.false_ne_true hs
          rw [(contains_false_iff used x).mpr hxu]
          rfl
      rw [selectedOf, hstep]
      cases ids.find? fun o => pyStartswith o c with
      | none => rfl
      | some m => rfl
    · rw [runAssign, List.lookup_cons]
      have hbeq : (idx == j) = false := by
        simp only [beq_eq_false_iff_ne, ne_eq]
        exact fun h => hji h.symm
      rw [hbeq]
      have hmem' : idx ∈ rest := by
        rcases List.mem_cons.mp hmem with h | h
        · exact absurd h.symm hji
        · exact h
      refine ih (usedAfter ids used j) hmem' (fun k hk => hlt k (List.mem_cons_of_mem _ hk)) ?_
      intro x hx
      unfold usedAfter at hx
      rcases hm : matchStep ids used j with _ | m
      · rw [hm] at hx
        exact hused x hx
      · rw [hm] at hx
        rcases List.mem_cons.mp hx with rfl | hx
        · exact hcross j (hlt j (List.mem_cons_self _ _)) hji x (matchStep_some hm).2.1
        · exact hused x hx

/-- Claim C6 (amended, order-independent part): the three slots whose required
code is shared with no other slot — slot 1 (`"214"`), slot 4 (`"204"`) and
slot 5 (`"205"`) — select the same id under every execution order of the seven
tasks: the first equipped id with that code, else the slot's fallback. -/
theorem unique_slots_order_indep (ids : List String) (order : List Nat)
    (hperm : order.Perm submissionOrder) :
    selectedId ids order 1 = ((ids.find? fun o => pyStartswith o "214").getD "214000000")
    ∧ selectedId ids order 4 = ((ids.find? fun o => pyStartswith o "204").getD "204000000")
    ∧ selectedId ids order 5 = ((ids.find? fun o => pyStartswith o "205").getD "205000000") := by
  have hlt : ∀ j ∈ order, j < 7 := by
    intro j hj
    have hj' : j ∈ submissionOrder := hperm.mem_iff.mp hj
    simp only [submissionOrder, List.mem_cons, List.not_mem_nil, or_false] at hj'
    omega
  refine ⟨?_, ?_, ?_⟩
  · have h := lookup_run_unique ids 1 "214" rfl ?_ order [] (hperm.mem_iff.mpr (by decide)) hlt
      (by intro x hx; exact absurd hx (List.not_mem_nil x))
    · rw [selectedId, h, Option.getD_some]
      rfl
    · intro j hj hne s hs
      interval_cases j
      · exact startswith_disjoint "211" "214" s rfl (by decide) hs
      · exact absurd rfl hne
      · exact startswith_disjoint "211" "214" s rfl (by decide) hs
      · exact startswith_disjoint "203" "214" s rfl (by decide) hs
      · exact startswith_disjoint "204" "214" s rfl (by decide) hs
      · exact startswith_disjoint "205" "214" s rfl (by decide) hs
      · exact startswith_disjoint "203" "214" s rfl (by decide) hs
  · have h := lookup_run_unique ids 4 "204" rfl ?_ order [] (hperm.mem_iff.mpr (by decide)) hlt
      (by intro x hx; exact absurd hx (List.not_mem_nil x))
    · rw [selectedId, h, Option.getD_some]
      rfl
    · intro j hj hne s hs
      interval_cases j
      · exact startswith_disjoint "211" "204" s rfl (by decide) hs
      · exact startswith_disjoint "214" "204" s rfl (by decide) hs
      · exact startswith_disjoint "211" "204" s rfl (by decide) hs
      · exact startswith_disjoint "203" "204" s rfl (by decide) hs
      · exact absurd rfl hne
      · exact startswith_disjoint "205" "204" s rfl (by decide) hs
      · exact startswith_disjoint "203" "204" s rfl (by decide) hs
  · have h := lookup_run_unique ids 5 "205" rfl ?_ order [] (hperm.mem_iff.mpr (by decide)) hlt
      (by intro x hx; exact absurd hx (List.not_mem_nil x))
    · rw [selectedId, h, Option.getD_some]
      rfl
    · intro j hj hne s hs
      interval_cases j
      · exact startswith_disjoint "211" "205" s rfl (by decide) hs
      · exact startswith_disjoint "214" "205" s rfl (by decide) hs
      · exact startswith_disjoint "211" "205" s rfl (by decide) hs
      · exact startswith_disjoint "203" "205" s rfl (by decide) hs
      · exact startswith_disjoint "204" "205" s rfl (by decide) hs
      · exact absurd rfl hne
      · exact startswith_disjoint "203" "205" s rfl (by decide) hs

/-- Witness for the amended C6: a reversed execution order on a concrete
equipped list. -/
theorem unique_slots_order_indep_witness :
    ([6, 5, 4, 3, 2, 1, 0] : List Nat).Perm submissionOrder
    ∧ (selectedId ["2140001", "2040009"] [6, 5, 4, 3, 2, 1, 0] 1 =
        (((["2140001", "2040009"] : List String).find? fun o => pyStartswith o "214").getD
          "214000000")
    ∧ selectedId ["2140001", "2040009"] [6, 5, 4, 3, 2, 1, 0] 4 =
        (((["2140001", "2040009"] : List String).find? fun o => pyStartswith o "204").getD
          "204000000")
    ∧ selectedId ["2140001", "2040009"] [6, 5, 4, 3, 2, 1, 0] 5 =
        (((["2140001", "2040009"] : List String).find? fun o => pyStartswith o "205").getD
          "205000000")) :=
  ⟨by decide, unique_slots_order_indep ["2140001", "2040009"] [6, 5, 4, 3, 2, 1, 0] (by decide)⟩

/-- Counterexample to claim C6 as stated: with two equipped ids both starting
with `"211"`, slot 0 receives a different id under the submission order than
under the order that runs task 2 first — the seven tasks share the mutable
`used_ids` set, so the per-slot assignment is order-dependent. -/
theorem order_dependence_cex :
    List.Perm [2, 1, 0, 3, 4, 5, 6] submissionOrder
    ∧ selectedId ["211000001", "211000002"] submissionOrder 0 = "211000001"
    ∧ selectedId ["211000001", "211000002"] [2, 1, 0, 3, 4, 5, 6] 0 = "211000002"
    ∧ ¬(selectedId ["211000001", "211000002"] submissionOrder 0 =
        selectedId ["211000001", "211000002"] [2, 1, 0, 3, 4, 5, 6] 0) := by
  decide

/-- Claim C9 — Fallback selection: when no equipped id starting with
`required_starts[i]` remains unused, slot `i` selects the fixed fallback id
`fallback_ids[i]`; in particular slot 2 falls back to `"208000000"` and slot 6
to `"212000000"`, ids that do not start with those slots' required codes. -/
theorem fallback_on_no_match (outfit_ids used : List String) (i : Nat) (hi : i < 7)
    (hnone : ∀ oid ∈ outfit_ids,
      pyStartswith oid (required_starts.getD i "") = true → oid ∈ used) :
    selectedOf outfit_ids used i = fallback_ids.getD i ""
    ∧ fallback_ids.getD 2 "" = "208000000"
    ∧ pyStartswith "208000000" (required_starts.getD 2 "") = false
    ∧ fallback_ids.getD 6 "" = "212000000"
    ∧ pyStartswith "212000000" (required_starts.getD 6 "") = false := by
  have hms : matchStep outfit_ids used i = none := by
    rw [matchStep, List.find?_eq_none]
    intro x hx
    cases hs : pyStartswith x (required_starts.getD i "") with
    | false => simp [hs]
    | true =>
      have hxu := hnone x hx hs
      simp [hs]
      exact hxu
  exact ⟨by simp [selectedOf, hms], by decide, by decide, by decide, by decide⟩

/-- Witness for C9: slot 2 with its only matching id already used. -/
theorem fallback_on_no_match_witness :
    2 < 7
    ∧ selectedOf ["211000777"] ["211000777"] 2 = fallback_ids.getD 2 ""
    ∧ fallback_ids.getD 2 "" = "208000000"
    ∧ pyStartswith "208000000" (required_starts.getD 2 "") = false
    ∧ fallback_ids.getD 6 "" = "212000000"
    ∧ pyStartswith "212000000" (required_starts.getD 6 "") = false := by
  have h := fallback_on_no_match ["211000777"] ["211000777"] 2 (by decide) (by decide)
  exact ⟨by decide, h.1, h.2.1, h.2.2.1, h.2.2.2.1, h.2.2.2.2⟩

/-- Two slots that share a required code receive distinct equipped ids
whenever two distinct matching equipped ids exist: the first slot's match is
recorded in `used_ids` before the second slot is processed, and no slot
between them can consume an id matching the shared code. -/
theorem shared_pair_distinct (ids : List String) (c : String) (i1 i2 : Nat)
    (pre1 mid post2 : List Nat)
    (hc1 : required_starts.getD i1 "" = c) (hc2 : required_starts.getD i2 "" = c)
    (horder1 : submissionOrder = pre1 ++ i1 :: (mid ++ i2 :: post2))
    (hn1 : i1 ∉ pre1) (hn2 : i2 ∉ pre1 ++ i1 :: mid)
    (hdisj1 : ∀ j ∈ pre1, ∀ s : String,
      pyStartswith s (required_starts.getD j "") = true → pyStartswith s c = false)
    (hdisjmid : ∀ j ∈ mid, ∀ s : String,
      pyStartswith s (required_starts.getD j "") = true → pyStartswith s c = false)
    (a b : String) (ha : a ∈ ids) (hb : b ∈ ids) (hab : a ≠ b)
    (hsa : pyStartswith a c = true) (hsb : pyStartswith b c = true) :
    selectedId ids submissionOrder i1 ≠ selectedId ids submissionOrder i2
    ∧ selectedId ids submissionOrder i1 ∈ ids
    ∧ selectedId ids submissionOrder i2 ∈ ids := by
  have hu1c : ∀ x ∈ runUsed ids pre1 [], pyStartswith x c = false := by
    intro x hx
    rcases runUsed_mem_spec ids pre1 [] x hx with h | ⟨_, j, hj, hs⟩
    · exact absurd h (List.not_mem_nil x)
    · exact hdisj1 j hj x hs
  have hau1 : a ∉ runUsed ids pre1 [] := fun hmem => by
    have h := hu1c a hmem
    rw [h] at hsa
    exact Bool.false_ne_true hsa
  obtain ⟨m1, hm1⟩ := matchStep_isSome i1 ha (by rw [hc1]; exact hsa) hau1
  have hm1p := matchStep_some hm1
  have hm1c : pyStartswith m1 c = true := by rw [← hc1]; exact hm1p.2.1
  have hsel1 : selectedId ids submissionOrder i1 = m1 := by
    rw [horder1, selectedId_decomp ids pre1 (mid ++ i2 :: post2) i1 hn1]
    exact selectedOf_eq_of_matchStep hm1
  have hu2eq : runUsed ids (pre1 ++ i1 :: mid) [] =
      runUsed ids mid (usedAfter ids (runUsed ids pre1 []) i1) := by
    rw [runUsed_append]
    rfl
  have hm1u2 : m1 ∈ runUsed ids (pre1 ++ i1 :: mid) [] := by
    rw [hu2eq]
    apply mem_runUsed_of_mem
    rw [usedAfter_eq_of_matchStep hm1]
    exact List.mem_cons_self _ _
  have hu2c : ∀ x ∈ runUsed ids (pre1 ++ i1 :: mid) [], pyStartswith x c = true → x = m1 := by
    intro x hx hxc
    rw [hu2eq] at hx
    rcases runUsed_mem_spec ids mid _ x hx with h | ⟨_, j, hj, hs⟩
    · rw [usedAfter_eq_of_matchStep hm1] at h
      rcases List.mem_cons.mp h with rfl | h
      · rfl
      · have := hu1c x h
        rw [this] at hxc
        exact absurd hxc Bool.false_ne_true
    · have := hdisjmid j hj x hs
      rw [this] at hxc
      exact absurd hxc Bool.false_ne_true
  have hone : ∃ x, x ∈ ids ∧ pyStartswith x c = true ∧ x ∉ runUsed ids (pre1 ++ i1 :: mid) [] := by
    by_cases hma : a = m1
    · refine ⟨b, hb, hsb, fun hmem => ?_⟩
      have hbm := hu2c b hmem hsb
      exact hab (by rw [hma, hbm])
    · exact ⟨a, ha, hsa, fun hmem => hma (hu2c a hmem hsa)⟩
  obtain ⟨x, hxi, hxc, hxu⟩ := hone
  obtain ⟨m2, hm2⟩ := matchStep_isSome i2 hxi (by rw [hc2]; exact hxc) hxu
  have hm2p := matchStep_some hm2
  have hsel2 : selectedId ids submissionOrder i2 = m2 := by
    have hord2 : submissionOrder = (pre1 ++ i1 :: mid) ++ i2 :: post2 := by
      rw [horder1, List.append_assoc, List.cons_append]
    rw [hord2, selectedId_decomp ids (pre1 ++ i1 :: mid) post2 i2 hn2]
    exact selectedOf_eq_of_matchStep hm2
  have hm2ne : m2 ≠ m1 := fun h => hm2p.2.2 (h ▸ hm1u2)
  rw [hsel1, hsel2]
  exact ⟨fun h => hm2ne h.symm, hm1p.1, hm2p.1⟩

/-- Claim C10 — No equipped id is assigned to more than one slot: over the
sequential embedding of the matching loop the `used_ids` set only grows and
never holds duplicates, and the two slot pairs sharing a code — slots 0 and 2
(`"211"`) and slots 3 and 6 (`"203"`) — receive distinct equipped ids whenever
at least two distinct matching equipped ids exist. -/
theorem used_ids_distinct (ids : List String) :
    (∀ (order : List Nat) (used : List String), ∃ added, runUsed ids order used = added ++ used)
    ∧ (∀ (order : List Nat) (used : List String), used.Nodup → (runUsed ids order used).Nodup)
    ∧ (∀ a b : String, a ∈ ids → b ∈ ids → a ≠ b →
        pyStartswith a "211" = true → pyStartswith b "211" = true →
        selectedId ids submissionOrder 0 ≠ selectedId ids submissionOrder 2
        ∧ selectedId ids submissionOrder 0 ∈ ids ∧ selectedId ids submissionOrder 2 ∈ ids)
    ∧ (∀ a b : String, a ∈ ids → b ∈ ids → a ≠ b →
        pyStartswith a "203" = true → pyStartswith b "203" = true →
        selectedId ids submissionOrder 3 ≠ selectedId ids submissionOrder 6
        ∧ selectedId ids submissionOrder 3 ∈ ids ∧ selectedId ids submissionOrder 6 ∈ ids) := by
  refine ⟨runUsed_exists_append ids, runUsed_nodup ids, ?_, ?_⟩
  · intro a b ha hb hab hsa hsb
    refine shared_pair_distinct ids "211" 0 2 [] [1] [3, 4, 5, 6] rfl rfl rfl (by decide)
      (by decide) ?_ ?_ a b ha hb hab hsa hsb
    · intro j hj
      exact absurd hj (List.not_mem_nil j)
    · intro j hj s hs
      fin_cases hj
      exact startswith_disjoint "214" "211" s rfl (by decide) hs
  · intro a b ha hb hab hsa hsb
    refine shared_pair_distinct ids "203" 3 6 [0, 1, 2] [4, 5] [] rfl rfl rfl (by decide)
      (by decide) ?_ ?_ a b ha hb hab hsa hsb
    · intro j hj s hs
      fin_cases hj
      · exact startswith_disjoint "211" "203" s rfl (by decide) hs
      · exact startswith_disjoint "214" "203" s rfl (by decide) hs
      · exact startswith_disjoint "211" "203" s rfl (by decide) hs
    · intro j hj s hs
      fin_cases hj
      · exact startswith_disjoint "204" "203" s rfl (by decide) hs
      · exact startswith_disjoint "205" "203" s rfl (by decide) hs

/-- Witness for C10 on a concrete equipped list with two `"211"` ids. -/
theorem used_ids_distinct_witness :
    ("211000001" : String) ≠ "211000002"
    ∧ (selectedId ["211000001", "211000002"] submissionOrder 0 ≠
        selectedId ["211000001", "211000002"] submissionOrder 2
    ∧ selectedId ["211000001", "211000002"] submissionOrder 0 ∈
        (["211000001", "211000002"] : List String)
    ∧ selectedId ["211000001", "211000002"] submissionOrder 2 ∈
        (["211000001", "211000002"] : List String)) :=
  ⟨by decide, (used_ids_distinct ["211000001", "211000002"]).2.2.1 "211000001" "211000002"
    (by decide) (by decide) (by decide) (by decide) (by decide)⟩

/-! ### Handler lemmas -/

theorem pasteSlots_pasteCount (ox oy : ℤ) (sx sy : ℚ) :
    ∀ (l : List (Option PILImage × SlotPos)) (cv : Canvas),
      (pasteSlots ox oy sx sy cv l).pasteCount = cv.pasteCount + l.countP fun rp => rp.1.isSome
  | [], cv => by simp [pasteSlots]
  | (none, p) :: rest, cv => by
    rw [pasteSlots, pasteSlots_pasteCount ox oy sx sy rest cv, List.countP_cons]
    simp
  | (some img, p) :: rest, cv => by
    rw [pasteSlots, pasteSlots_pasteCount ox oy sx sy rest _, List.countP_cons]
    simp [Canvas.pasteCount]
    omega

/-- On the success path (correct key, non-empty uid, player info and
background present) the handler returns a 200 PNG of the composited canvas
and performs the player fetch, the seven image fetches and the background
open, in that order. -/
theorem outfit_image_success (u : String) (hu : u ≠ "") (pd : PlayerData) (bg : PILImage)
    (oracle : String → Option PILImage) :
    outfit_image (some API_KEY) (some u) (some pd) (some bg) oracle =
      (⟨200, Body.png (pasteSlots (offsetX BACKGROUND_MODE 800 800 bg.size.1 bg.size.2)
          (offsetY BACKGROUND_MODE 800 800 bg.size.1 bg.size.2)
          (scaleX BACKGROUND_MODE 800 800 bg.size.1 bg.size.2)
          (scaleY BACKGROUND_MODE 800 800 bg.size.1 bg.size.2)
          (composeCanvas 800 800
            (PILImage.resized bg (newW BACKGROUND_MODE 800 800 bg.size.1 bg.size.2)
              (newH BACKGROUND_MODE 800 800 bg.size.1 bg.size.2))
            (offsetX BACKGROUND_MODE 800 800 bg.size.1 bg.size.2)
            (offsetY BACKGROUND_MODE 800 800 bg.size.1 bg.size.2))
          ((((runAssign (getEquippedOutfit pd) submissionOrder []).map Prod.snd).map fun m =>
            fetch_and_process_image oracle (imageUrl m)).zip positions))⟩,
        Effect.fetchPlayer (playerInfoUrl u) ::
          (((runAssign (getEquippedOutfit pd) submissionOrder []).map Prod.snd).map fun m =>
            Effect.fetchImage (imageUrl m)) ++ [Effect.openBackground BACKGROUND_FILENAME]) := by
  simp [outfit_image, hu, CANVAS_SIZE]

/-- Claim C5 — For every request with the correct key, a non-empty uid, a
successful player-info fetch and a readable background, the endpoint returns
a 200 PNG response, for every combination of per-slot image-fetch outcomes
(the image oracle is universally quantified; failed slots are skipped). -/
theorem png_on_success (key uid : Option String) (u : String) (pd : PlayerData) (bg : PILImage)
    (oracle : String → Option PILImage)
    (hkey : key = some API_KEY) (huid : uid = some u) (hu : u ≠ "") :
    (outfit_image key uid (some pd) (some bg) oracle).1.status = 200
    ∧ ∃ c, (outfit_image key uid (some pd) (some bg) oracle).1.body = Body.png c := by
  subst hkey huid
  rw [outfit_image_success u hu pd bg oracle]
  exact ⟨rfl, _, rfl⟩

/-- Witness for C5: every slot fetch failing still yields a PNG. -/
theorem png_on_success_witness :
    (some API_KEY = some API_KEY ∧ some "123" = some ("123" : String) ∧ ("123" : String) ≠ "")
    ∧ (outfit_image (some API_KEY) (some "123") (some ⟨none⟩)
        (some (PILImage.decoded "bg" 1024 768)) (fun _ => none)).1.status = 200
    ∧ ∃ c, (outfit_image (some API_KEY) (some "123") (some ⟨none⟩)
        (some (PILImage.decoded "bg" 1024 768)) (fun _ => none)).1.body = Body.png c :=
  ⟨⟨rfl, rfl, by decide⟩,
    png_on_success (some API_KEY) (some "123") "123" ⟨none⟩ (PILImage.decoded "bg" 1024 768)
      (fun _ => none) rfl rfl (by decide)⟩

/-- Claim C4 — A request passing the key and uid checks whose player-info
fetch succeeds initiates exactly seven outfit-piece image fetches (one per
entry of `required_starts`) and composites at most seven pieces onto the
canvas (one paste is the background itself). -/
theorem seven_fetches (key uid : Option String) (u : String) (pd : PlayerData) (bg : PILImage)
    (oracle : String → Option PILImage)
    (hkey : key = some API_KEY) (huid : uid = some u) (hu : u ≠ "") :
    required_starts.length = 7
    ∧ (outfit_image key uid (some pd) (some bg) oracle).2.countP isImageFetch = 7
    ∧ ∃ c k, (outfit_image key uid (some pd) (some bg) oracle).1.body = Body.png c
        ∧ c.pasteCount = 1 + k ∧ k ≤ 7 := by
  subst hkey huid
  rw [outfit_image_success u hu pd bg oracle]
  refine ⟨rfl, ?_, ?_⟩
  · simp only [List.countP_cons, List.countP_append, List.countP_map, Function.comp,
      isImageFetch, List.countP_true, List.length_map, runAssign_length]
    rfl
  · refine ⟨_, ((((runAssign (getEquippedOutfit pd) submissionOrder []).map Prod.snd).map
        fun m => fetch_and_process_image oracle (imageUrl m)).zip positions).countP
          (fun rp => rp.1.isSome), rfl, ?_, ?_⟩
    · rw [pasteSlots_pasteCount]
      rfl
    · calc ((((runAssign (getEquippedOutfit pd) submissionOrder []).map Prod.snd).map
            fun m => fetch_and_process_image oracle (imageUrl m)).zip positions).countP
              (fun rp => rp.1.isSome)
          ≤ ((((runAssign (getEquippedOutfit pd) submissionOrder []).map Prod.snd).map
            fun m => fetch_and_process_image oracle (imageUrl m)).zip positions).length :=
            List.countP_le_length _
      _ ≤ 7 := by
          rw [List.length_zip, List.length_map, List.length_map, runAssign_length]
          exact min_le_right _ _

/-- Witness for C4 on a concrete request. -/
theorem seven_fetches_witness :
    (some API_KEY = some API_KEY ∧ some "123" = some ("123" : String) ∧ ("123" : String) ≠ "")
    ∧ required_starts.length = 7
    ∧ (outfit_image (some API_KEY) (some "123") (some ⟨none⟩)
        (some (PILImage.decoded "bg" 1024 768)) (fun _ => none)).2.countP isImageFetch = 7
    ∧ ∃ c k, (outfit_image (some API_KEY) (some "123") (some ⟨none⟩)
        (some (PILImage.decoded "bg" 1024 768)) (fun _ => none)).1.body = Body.png c
        ∧ c.pasteCount = 1 + k ∧ k ≤ 7 := by
  have h := seven_fetches (some API_KEY) (some "123") "123" ⟨none⟩
    (PILImage.decoded "bg" 1024 768) (fun _ => none) rfl rfl (by decide)
  exact ⟨⟨rfl, rfl, by decide⟩, h⟩

/-- Claim C7 — The endpoint is stateless: the handler leaves the cross-request
server state unchanged, and two requests with identical query parameters,
identical third-party responses and the same background produce identical
results whatever state the server was in. -/
theorem stateless_handler (σ σ' : ServerState) (key uid : Option String)
    (playerResp : Option PlayerData) (bgResp : Option PILImage)
    (oracle : String → Option PILImage) :
    (outfit_imageSt σ key uid playerResp bgResp oracle).2 = σ
    ∧ (outfit_imageSt σ key uid playerResp bgResp oracle).1 =
        (outfit_imageSt σ' key uid playerResp bgResp oracle).1 :=
  ⟨rfl, rfl⟩

/-- Claim C8 — Validation precedes all outbound work: a wrong or missing key
yields 401 with a JSON body, and a correct key with a missing or empty uid
yields 400 with a JSON body; in both cases the effect list is empty, so no
third-party API is contacted and no image is produced. -/
theorem validation_before_outbound (key uid : Option String) (playerResp : Option PlayerData)
    (bgResp : Option PILImage) (oracle : String → Option PILImage) :
    (key ≠ some API_KEY →
      outfit_image key uid playerResp bgResp oracle =
        (⟨401, Body.json "Invalid or missing API key"⟩, []))
    ∧ (key = some API_KEY → uid = none ∨ uid = some "" →
      outfit_image key uid playerResp bgResp oracle =
        (⟨400, Body.json "Missing uid parameter"⟩, [])) := by
  constructor
  · intro hk
    simp [outfit_image, hk]
  · intro hk huid
    subst hk
    rcases huid with rfl | rfl
    · simp [outfit_image]
    · simp [outfit_image]

/-- Witness for C8: a wrong key and an empty uid on concrete requests. -/
theorem validation_before_outbound_witness :
    (some "wrong" ≠ some API_KEY)
    ∧ outfit_image (some "wrong") (some "123") none none (fun _ => none) =
        (⟨401, Body.json "Invalid or missing API key"⟩, [])
    ∧ (some API_KEY = some API_KEY)
    ∧ outfit_image (some API_KEY) (some "") none none (fun _ => none) =
        (⟨400, Body.json "Missing uid parameter"⟩, []) :=
  ⟨by decide,
    (validation_before_outbound (some "wrong") (some "123") none none (fun _ => none)).1
      (by decide),
    rfl,
    (validation_before_outbound (some API_KEY) (some "") none none (fun _ => none)).2 rfl
      (Or.inr rfl)⟩

/-- Witness for C3: 800x800 canvas, 1024x768 background. -/
theorem cover_fill_witness :
    ((1 ≤ 800 ∧ 1 ≤ 800) ∧ 1 ≤ 1024 ∧ 1 ≤ 768) ∧
    (scaleFor "cover" 800 800 1024 768 = max ((800 : ℚ) / 1024) ((800 : ℚ) / 768)
    ∧ 800 ≤ newW "cover" 800 800 1024 768
    ∧ 800 ≤ newH "cover" 800 800 1024 768
    ∧ offsetX "cover" 800 800 1024 768 ≤ 0
    ∧ offsetY "cover" 800 800 1024 768 ≤ 0
    ∧ (800 : ℤ) ≤ offsetX "cover" 800 800 1024 768 + (newW "cover" 800 800 1024 768 : ℤ)
    ∧ (800 : ℤ) ≤ offsetY "cover" 800 800 1024 768 + (newH "cover" 800 800 1024 768 : ℤ)) := by
  refine ⟨by decide, ?_⟩
  have h := cover_fill 800 800 1024 768 (by decide) (by decide) (by decide) (by decide)
  exact_mod_cast h
